import Mathlib

/-!
Verification development for the FIDE event scraper
(`src/scraper/scrape_fide_calendar.py`).

The Python source is shallowly embedded: pure helper functions become Lean
functions over `List Char` / `Nat`; Python `datetime` values become the
`DT` structure (the program only ever produces minute-resolution values);
the `ics` calendar container, which the source fills with `cal.events.add`
on a Python *set*, is modelled as a `Multiset` of encoded events.  The
regular expressions of the source are embedded as explicit backtracking
matchers with Python's leftmost-match, greedy-quantifier,
first-alternative semantics over the ASCII character classes
(`\d = [0-9]`, `\w = [A-Za-z0-9_]`, `\s = [ \t\n\r\x0b\x0c]`; the scraped
inputs are ASCII).  `dateutil.parser.parse(s, dayfirst=True)` is embedded
on the token shapes this program feeds it ("D MONTH YYYY",
"D MONTH YYYY HH:MM", bare month name); the bare-month shape fills the
missing fields from the current date, so the embedding threads an
explicit `today : Date` wherever the source implicitly depends on the
run date (`dateutil`'s default and `date.today()`).
-/

namespace FideScrape

/-- Calendar date (proleptic Gregorian), as carried by Python `date`. -/
structure Date where
  year : Nat
  month : Nat
  day : Nat
deriving DecidableEq, Repr

/-- Minute-resolution datetime, as carried by the Python `datetime` values
this program produces (`dateutil` never yields seconds on its inputs). -/
structure DT where
  date : Date
  hour : Nat
  minute : Nat
deriving DecidableEq, Repr

/-- Gregorian leap-year rule, as implemented by Python `datetime`. -/
def isLeap (y : Nat) : Bool :=
  y % 4 == 0 && (y % 100 != 0 || y % 400 == 0)

/-- Days in a month, as enforced by the Python `datetime` constructor. -/
def daysInMonth (y m : Nat) : Nat :=
  if m == 2 then (if isLeap y then 29 else 28)
  else if m == 4 || m == 6 || m == 9 || m == 11 then 30
  else 31

/-- Validity check of `datetime(year, month, day)`: the constructor raises
(and `parse_maybe_dt` returns `None`) outside these bounds. -/
def validDate (y m d : Nat) : Bool :=
  1 ≤ m && m ≤ 12 && 1 ≤ d && d ≤ daysInMonth y m && 1 ≤ y && y ≤ 9999

/-- Successor day, the embedding of `d + timedelta(days=1)`. -/
def nextDay (d : Date) : Date :=
  if d.day < daysInMonth d.year d.month then ⟨d.year, d.month, d.day + 1⟩
  else if d.month < 12 then ⟨d.year, d.month + 1, 1⟩
  else ⟨d.year + 1, 1, 1⟩

/-! ## SHA-256 (`hashlib.sha256`), needed by `event_uid` -/

/-- 32-bit right rotation. -/
def rotr32 (n x : Nat) : Nat :=
  ((x >>> n) ||| (x <<< (32 - n))) % 4294967296

def shr32 (n x : Nat) : Nat := x >>> n

def ch32 (e f g : Nat) : Nat := (e &&& f) ^^^ ((e ^^^ 0xFFFFFFFF) &&& g)

def maj32 (a b c : Nat) : Nat :=
  Nat.xor (Nat.xor (a &&& b) (a &&& c)) (b &&& c)

def bigSigma0 (a : Nat) : Nat := rotr32 2 a ^^^ rotr32 13 a ^^^ rotr32 22 a

def bigSigma1 (e : Nat) : Nat := rotr32 6 e ^^^ rotr32 11 e ^^^ rotr32 25 e

def smallSigma0 (x : Nat) : Nat := rotr32 7 x ^^^ rotr32 18 x ^^^ shr32 3 x

def smallSigma1 (x : Nat) : Nat := rotr32 17 x ^^^ rotr32 19 x ^^^ shr32 10 x

/-- The first sixty-four primes, sources of the SHA-256 round constants. -/
def primes64 : List Nat :=
  [2, 3, 5, 7, 11, 13, 17, 19, 23, 29, 31, 37, 41, 43, 47, 53,
   59, 61, 67, 71, 73, 79, 83, 89, 97, 101, 103, 107, 109, 113, 127, 131,
   137, 139, 149, 151, 157, 163, 167, 173, 179, 181, 191, 193, 197, 199, 211, 223,
   227, 229, 233, 239, 241, 251, 257, 263, 269, 271, 277, 281, 283, 293, 307, 311]

/-- Fueled integer cube root by bisection; invariant `lo³ ≤ n < hi³`. -/
def icbrtAux : Nat → Nat → Nat → Nat → Nat
  | 0, lo, _, _ => lo
  | fuel + 1, lo, hi, n =>
    if hi ≤ lo + 1 then lo
    else
      let mid := (lo + hi) / 2
      if mid * mid * mid ≤ n then icbrtAux fuel mid hi n
      else icbrtAux fuel lo mid n

/-- Integer cube root (floor). -/
def icbrt (n : Nat) : Nat := icbrtAux 200 0 (n + 2) n

/-- Fueled integer square root by bisection; invariant `lo² ≤ n < hi²`. -/
def isqrtAux : Nat → Nat → Nat → Nat → Nat
  | 0, lo, _, _ => lo
  | fuel + 1, lo, hi, n =>
    if hi ≤ lo + 1 then lo
    else
      let mid := (lo + hi) / 2
      if mid * mid ≤ n then isqrtAux fuel mid hi n
      else isqrtAux fuel lo mid n

/-- Integer square root (floor). -/
def isqrt (n : Nat) : Nat := isqrtAux 200 0 (n + 2) n

/-- SHA-256 round constants: first 32 fractional bits of the cube roots of
the first sixty-four primes. -/
def sha256K : List Nat := primes64.map (fun p => icbrt (p * 2 ^ 96) % 2 ^ 32)

/-- SHA-256 initial hash: first 32 fractional bits of the square roots of
the first eight primes. -/
def sha256H0 : List Nat :=
  [2, 3, 5, 7, 11, 13, 17, 19].map (fun p => isqrt (p * 2 ^ 64) % 2 ^ 32)

/-- SHA-256 message padding over a byte list. -/
def padMsg (msg : List Nat) : List Nat :=
  let L := msg.length
  let zeros := (119 - L % 64) % 64
  let bitLen := L * 8
  msg ++ [0x80] ++ List.replicate zeros 0 ++
    [56, 48, 40, 32, 24, 16, 8, 0].map (fun s => (bitLen >>> s) % 256)

/-- Big-endian packing of bytes into 32-bit words. -/
def toWords : List Nat → List Nat
  | a :: b :: c :: d :: rest =>
    ((a <<< 24) ||| (b <<< 16) ||| (c <<< 8) ||| d) :: toWords rest
  | _ => []

/-- Split a word list into 16-word blocks (the padded message is always
a whole number of blocks, so the catch-all arm is unreachable). -/
def chunk16 : List Nat → List (List Nat)
  | [] => []
  | w0 :: w1 :: w2 :: w3 :: w4 :: w5 :: w6 :: w7 ::
      w8 :: w9 :: w10 :: w11 :: w12 :: w13 :: w14 :: w15 :: rest =>
    [w0, w1, w2, w3, w4, w5, w6, w7, w8, w9, w10, w11, w12, w13, w14, w15] ::
      chunk16 rest
  | l => [l]

/-- Message-schedule expansion from 16 to 64 words. -/
def msgSchedule (block : List Nat) : Array Nat :=
  (List.range 48).foldl
    (fun a _ =>
      let i := a.size
      a.push ((smallSigma1 (a.getD (i - 2) 0) + a.getD (i - 7) 0 +
        smallSigma0 (a.getD (i - 15) 0) + a.getD (i - 16) 0) % 2 ^ 32))
    block.toArray

/-- One SHA-256 compression step over the running 8-word state. -/
def sha256Round (st : Nat × Nat × Nat × Nat × Nat × Nat × Nat × Nat)
    (kw : Nat × Nat) : Nat × Nat × Nat × Nat × Nat × Nat × Nat × Nat :=
  let (a, b, c, d, e, f, g, h) := st
  let t1 := (h + bigSigma1 e + ch32 e f g + kw.1 + kw.2) % 2 ^ 32
  let t2 := (bigSigma0 a + maj32 a b c) % 2 ^ 32
  ((t1 + t2) % 2 ^ 32, a, b, c, (d + t1) % 2 ^ 32, e, f, g)

/-- Compress one 16-word block into the running hash. -/
def compressBlock (h : List Nat) (block : List Nat) : List Nat :=
  let w := msgSchedule block
  let st0 := (h.getD 0 0, h.getD 1 0, h.getD 2 0, h.getD 3 0,
              h.getD 4 0, h.getD 5 0, h.getD 6 0, h.getD 7 0)
  let r := (sha256K.zip w.toList).foldl sha256Round st0
  let (a, b, c, d, e, f, g, hh) := r
  List.zipWith (fun x y => (x + y) % 2 ^ 32) h [a, b, c, d, e, f, g, hh]

/-- SHA-256 digest of a byte list, as eight 32-bit words. -/
def sha256Words (msg : List Nat) : List Nat :=
  (chunk16 (toWords (padMsg msg))).foldl compressBlock sha256H0

/-- Lower-case hex digit: 0-9 then a-f, as Python's `hexdigest`. -/
def hexNib (n : Nat) : Char :=
  if n < 10 then Char.ofNat (48 + n) else Char.ofNat (87 + n)

/-- Eight-character hex rendering of a 32-bit word. -/
def wordHex (w : Nat) : List Char :=
  [hexNib ((w >>> 28) % 16), hexNib ((w >>> 24) % 16),
   hexNib ((w >>> 20) % 16), hexNib ((w >>> 16) % 16),
   hexNib ((w >>> 12) % 16), hexNib ((w >>> 8) % 16),
   hexNib ((w >>> 4) % 16), hexNib (w % 16)]

/-- The 64-character `hexdigest()` of SHA-256. -/
def sha256hexList (msg : List Nat) : List Char :=
  (sha256Words msg).flatMap wordHex

/-- UTF-8 encoding of one code point (`str.encode("utf-8")`). -/
def charUtf8 (c : Char) : List Nat :=
  let n := c.toNat
  if n < 0x80 then [n]
  else if n < 0x800 then [0xC0 ||| (n >>> 6), 0x80 ||| (n &&& 0x3F)]
  else if n < 0x10000 then
    [0xE0 ||| (n >>> 12), 0x80 ||| ((n >>> 6) &&& 0x3F), 0x80 ||| (n &&& 0x3F)]
  else
    [0xF0 ||| (n >>> 18), 0x80 ||| ((n >>> 12) &&& 0x3F),
     0x80 ||| ((n >>> 6) &&& 0x3F), 0x80 ||| (n &&& 0x3F)]

/-- UTF-8 byte encoding of a string. -/
def utf8Bytes (s : String) : List Nat := s.toList.flatMap charUtf8

/-- Embedding of `event_uid`: first 32 hex characters of the SHA-256 of the
UTF-8 encoded URL, then `"@fid-event-scrape"`. -/
def event_uid (url : String) : String :=
  String.mk ((sha256hexList (utf8Bytes url)).take 32 ++ "@fid-event-scrape".toList)

/-! ## Python string helpers -/

/-- Python's ASCII whitespace class `\s` (the scraped inputs are ASCII). -/
def isSpaceC (c : Char) : Bool :=
  [' ', '\t', '\n', '\x0d', '\x0b', '\x0c'].contains c

/-- Regex word character `\w` (ASCII model). -/
def isWordC (c : Char) : Bool := c.isAlphanum || c == '_'

/-- Line-break characters recognized by Python `str.splitlines`
(including the Unicode breaks U+0085, U+2028, U+2029). -/
def isNewlineC (c : Char) : Bool :=
  ['\n', '\x0d', '\x0b', '\x0c', '\x1c', '\x1d', '\x1e'].contains c ||
  c.toNat == 0x85 || c.toNat == 0x2028 || c.toNat == 0x2029

/-- Python `str.strip()` on a character list. -/
def stripChars (l : List Char) : List Char :=
  ((l.dropWhile isSpaceC).reverse.dropWhile isSpaceC).reverse

/-- Python `str.strip()`. -/
def stripStr (s : String) : String := String.mk (stripChars s.toList)

/-- ASCII lower-casing, as `str.lower()` acts on this program's ASCII keys. -/
def lowerChars (l : List Char) : List Char := l.map Char.toLower

/-- Python `str.splitlines`: split at line breaks, treating `\r\n` as one
break and producing no entry after a terminal break. -/
def splitLinesAux : List Char → List (List Char)
  | [] => [[]]
  | '\x0d' :: '\n' :: rest2 =>
    [] :: (if rest2.isEmpty then [] else splitLinesAux rest2)
  | c :: rest =>
    if isNewlineC c then
      [] :: (if rest.isEmpty then [] else splitLinesAux rest)
    else
      match splitLinesAux rest with
      | [] => [[c]]
      | line :: more => (c :: line) :: more

/-- Python `str.splitlines` over a string. -/
def splitLines (s : String) : List (List Char) :=
  if s.toList.isEmpty then [] else splitLinesAux s.toList

/-- Engine for `re.sub(r"[ \t]+\n", "\n", s)`: `pend` carries the blanks
read since the last non-blank; they are dropped when the run ends at a
newline and re-emitted otherwise. -/
def dropTrailingWsAux (pend : List Char) : List Char → List Char
  | [] => pend.reverse
  | c :: rest =>
    if c == ' ' || c == '\t' then dropTrailingWsAux (c :: pend) rest
    else if c == '\n' then '\n' :: dropTrailingWsAux [] rest
    else pend.reverse ++ c :: dropTrailingWsAux [] rest

/-- Embedding of `re.sub(r"[ \t]+\n", "\n", s)`: drop every run of spaces
and tabs that immediately precedes a newline. -/
def dropTrailingWs (l : List Char) : List Char := dropTrailingWsAux [] l

/-- Engine for `re.sub(r"\n{3,}", "\n\n", s)`: `n` counts pending
newlines; a run of three or more is emitted as exactly two. -/
def collapseNewlinesAux (n : Nat) : List Char → List Char
  | [] => List.replicate (if n ≥ 3 then 2 else n) '\n'
  | c :: rest =>
    if c == '\n' then collapseNewlinesAux (n + 1) rest
    else
      List.replicate (if n ≥ 3 then 2 else n) '\n' ++
        c :: collapseNewlinesAux 0 rest

/-- Embedding of `re.sub(r"\n{3,}", "\n\n", s)`: collapse runs of three or
more newlines to exactly two. -/
def collapseNewlines (l : List Char) : List Char := collapseNewlinesAux 0 l

/-- Embedding of `clean_text`: remove `\r`, strip trailing blanks before
newlines, collapse blank-line runs, and strip the ends. -/
def clean_text (s : String) : String :=
  String.mk (stripChars (collapseNewlines (dropTrailingWs
    (s.toList.filter (fun c => c != '\x0d')))))

/-! ## Regex embedding for `parse_date_range_from_text`

Each of the four `re.search` patterns of the source is embedded as a
matcher at a position (with the preceding character for `\b`), driven by a
leftmost-first search.  Alternative orderings follow Python's engine:
greedy quantifiers offer the longer consumption first and alternations are
tried in the written order; `List` collects the alternatives in preference
order and the head of the final list is the match Python reports. -/

/-- Numeric value of a digit character. -/
def digitVal (c : Char) : Nat := c.toNat - 48

/-- Greedy `\d{1,2}`: the two-digit reading first, then one digit. -/
def tryD12 : List Char → List (Nat × List Char)
  | c1 :: c2 :: rest =>
    if c1.isDigit then
      if c2.isDigit then
        [(digitVal c1 * 10 + digitVal c2, rest), (digitVal c1, c2 :: rest)]
      else [(digitVal c1, c2 :: rest)]
    else []
  | [c1] => if c1.isDigit then [(digitVal c1, [])] else []
  | [] => []

/-- Greedy `\s*` (deterministic here: no following branch consumes
whitespace). -/
def eatWs (l : List Char) : List Char := l.dropWhile isSpaceC

/-- Greedy `\s+`. -/
def eatWs1 (l : List Char) : Option (List Char) :=
  match l with
  | c :: rest => if isSpaceC c then some (eatWs rest) else none
  | [] => none

/-- The separator alternation `(?:–|-|to)` under `re.I`. -/
def sepMatch : List Char → Option (List Char)
  | '–' :: r => some r
  | '-' :: r => some r
  | c :: o :: r =>
    if (c == 't' || c == 'T') && (o == 'o' || o == 'O') then some r else none
  | _ => none

/-- The `MONTHS` alternation, in the source's written order, with each
name's month number. -/
def monthsTable : List (String × Nat) :=
  [("Jan", 1), ("Feb", 2), ("Mar", 3), ("Apr", 4), ("May", 5), ("Jun", 6),
   ("Jul", 7), ("Aug", 8), ("Sep", 9), ("Sept", 9), ("Oct", 10), ("Nov", 11),
   ("Dec", 12), ("January", 1), ("February", 2), ("March", 3), ("April", 4),
   ("June", 6), ("July", 7), ("August", 8), ("September", 9), ("October", 10),
   ("November", 11), ("December", 12)]

/-- Case-insensitive literal prefix match, returning the remainder. -/
def stripLitCI : List Char → List Char → Option (List Char)
  | [], l => some l
  | _ :: _, [] => none
  | p :: ps, c :: cs =>
    if p.toLower == c.toLower then stripLitCI ps cs else none

/-- All month alternatives matching at this position, in alternation
order (`re.I`). -/
def matchMonthAlts (l : List Char) : List (Nat × List Char) :=
  monthsTable.filterMap (fun nm =>
    (stripLitCI nm.1.toList l).map (fun rest => (nm.2, rest)))

/-- Exactly four digits `\d{4}`. -/
def year4 : List Char → Option (Nat × List Char)
  | a :: b :: c :: d :: rest =>
    if a.isDigit && b.isDigit && c.isDigit && d.isDigit then
      some (digitVal a * 1000 + digitVal b * 100 + digitVal c * 10 + digitVal d,
        rest)
    else none
  | _ => none

/-- `\d{1,2}:\d{2}` with greedy hour, as (hour, minute). -/
def timeMatch (l : List Char) : List ((Nat × Nat) × List Char) :=
  (tryD12 l).filterMap (fun hr =>
    match hr.2 with
    | ':' :: m1 :: m2 :: rest =>
      if m1.isDigit && m2.isDigit then
        some ((hr.1, digitVal m1 * 10 + digitVal m2), rest)
      else none
    | _ => none)

/-- `\b` before a word character: the previous character, if any, is not a
word character. -/
def noWordBefore : Option Char → Bool
  | none => true
  | some c => !isWordC c

/-- `\b` after a digit: the next character, if any, is not a word
character. -/
def boundaryAfterDigit : List Char → Bool
  | [] => true
  | c :: _ => !isWordC c

/-- The fully-qualified date `\d{1,2}\s+MONTHS\s+\d{4}` with captures
(day, month, year), all continuations in preference order. -/
def dateDMYs (l : List Char) : List ((Nat × Nat × Nat) × List Char) :=
  (tryD12 l).flatMap (fun dr =>
    match eatWs1 dr.2 with
    | none => []
    | some r2 =>
      (matchMonthAlts r2).flatMap (fun mr =>
        match eatWs1 mr.2 with
        | none => []
        | some r4 =>
          match year4 r4 with
          | none => []
          | some (y, r5) => [((dr.1, mr.1, y), r5)]))

/-- Pattern 1 at a position:
`\b(\d{1,2})\s*(?:–|-|to)\s*(\d{1,2})\s+MONTHS\s+(\d{4})\b`. -/
def pat1At (prev : Option Char) (l : List Char) :
    Option (Nat × Nat × Nat × Nat) :=
  if noWordBefore prev then
    ((tryD12 l).flatMap (fun d1r =>
      match sepMatch (eatWs d1r.2) with
      | none => []
      | some r2 =>
        (tryD12 (eatWs r2)).flatMap (fun d2r =>
          match eatWs1 d2r.2 with
          | none => []
          | some r4 =>
            (matchMonthAlts r4).flatMap (fun mr =>
              match eatWs1 mr.2 with
              | none => []
              | some r6 =>
                match year4 r6 with
                | none => []
                | some (y, r7) =>
                  if boundaryAfterDigit r7 then [(d1r.1, d2r.1, mr.1, y)]
                  else [])))).head?
  else none

/-- The second-date part of pattern 2, `\d{1,2}\s+MONTHS?\s*\d{4}?\b`
(the `?` after `{4}` is a lazy marker on an exact count, so the year is
required); only match success matters, the source discards its text. -/
def pat2Tail (l : List Char) : List (List Char) :=
  (tryD12 l).flatMap (fun dr =>
    match eatWs1 dr.2 with
    | none => []
    | some r2 =>
      let fin := fun (l' : List Char) =>
        match year4 (eatWs l') with
        | some (_, r) => if boundaryAfterDigit r then [r] else []
        | none => []
      (matchMonthAlts r2).flatMap (fun mr => fin mr.2) ++ fin r2)

/-- Pattern 2 at a position:
`\b(\d{1,2}\s+MONTHS\s+\d{4})\s*(?:–|-|to)\s*(\d{1,2}\s+MONTHS?\s*\d{4}?)\b`.
The captures the source actually uses are `group(1)`, re-parsed as the
first date, and `group(2)` — the *month name inside the first date*. -/
def pat2At (prev : Option Char) (l : List Char) : Option (Nat × Nat × Nat) :=
  if noWordBefore prev then
    ((dateDMYs l).flatMap (fun gr =>
      match sepMatch (eatWs gr.2) with
      | none => []
      | some r2 => (pat2Tail (eatWs r2)).map (fun _ => gr.1))).head?
  else none

/-- Pattern 3 at a position:
`\b(\d{1,2}\s+MONTHS\s+\d{4})\s+(\d{1,2}:\d{2})(?:\s*[-–]\s*(\d{1,2}:\d{2}))?`
with captures (date, first time, optional second time). -/
def pat3DashChar (c : Char) : Bool := c == '-' || c == '–'

/-- The optional trailer `(?:\s*[-–]\s*(\d{1,2}:\d{2}))?` of pattern 3:
the greedy engine offers the second-time readings first, then skips the
group. -/
def pat3Tail (rest : List Char) : List (Option (Nat × Nat)) :=
  (match eatWs rest with
   | c :: r4 =>
     if pat3DashChar c then
       (timeMatch (eatWs r4)).map (fun t2r => some t2r.1)
     else []
   | [] => []) ++ [none]

def pat3At (prev : Option Char) (l : List Char) :
    Option ((Nat × Nat × Nat) × (Nat × Nat) × Option (Nat × Nat)) :=
  if noWordBefore prev then
    ((dateDMYs l).flatMap (fun gr =>
      match eatWs1 gr.2 with
      | none => []
      | some r2 =>
        (timeMatch r2).flatMap (fun t1r =>
          (pat3Tail t1r.2).map (fun t2 => (gr.1, t1r.1, t2))))).head?
  else none

/-- Pattern 4 at a position: `\b(\d{1,2}\s+MONTHS\s+\d{4})\b`. -/
def pat4At (prev : Option Char) (l : List Char) : Option (Nat × Nat × Nat) :=
  if noWordBefore prev then
    ((dateDMYs l).filterMap (fun gr =>
      if boundaryAfterDigit gr.2 then some gr.1 else none)).head?
  else none

/-- Leftmost `re.search` driver: try the position matcher at every
position, earliest first, tracking the previous character for `\b`. -/
def searchAux {α : Type} (f : Option Char → List Char → Option α) :
    Option Char → List Char → Option α
  | prev, l =>
    match f prev l with
    | some g => some g
    | none =>
      match l with
      | [] => none
      | c :: r => searchAux f (some c) r

/-! ## `parse_maybe_dt` (dateutil) on the shapes this program builds -/

/-- Embedding of `dtp.parse(f"{d} {month} {year}", dayfirst=True)`, as
built by patterns 1, 2 and 4: a valid date at midnight, `None` when the
`datetime` constructor would raise. -/
def parse_dmy (d mon y : Nat) : Option DT :=
  if validDate y mon d then some ⟨⟨y, mon, d⟩, 0, 0⟩ else none

/-- Embedding of `dtp.parse(f"{d} {month} {year} {hh}:{mm}")`, the shape
fed through explicit start/end field values. -/
def parse_dmyhm (d mon y h mi : Nat) : Option DT :=
  if validDate y mon d && h ≤ 23 && mi ≤ 59 then some ⟨⟨y, mon, d⟩, h, mi⟩
  else none

/-- Embedding of `dtp.parse(f"{d} {month} {year} {month}")` — the string
pattern 3's branch builds for its start, because `m.group(2)` there is the
month name captured by the `MONTHS` alternation, not the first time.
Four year/month/day components make `dateutil`'s resolver raise
(`More than three YMD values`), so this parse always fails. -/
def parse_dmy_extraMonth (_d _mon _y _mon2 : Nat) : Option DT := none

/-- Embedding of `dtp.parse(monthName)` — the string `m.group(2)` that
pattern 2's branch feeds to `parse_maybe_dt` is the *month name of the
first date*; `dateutil` fills the missing year and day from the current
date (time midnight), raising when that day is out of range. -/
def parseMonthOnly (today : Date) (mon : Nat) : Option DT :=
  if validDate today.year mon today.day then
    some ⟨⟨today.year, mon, today.day⟩, 0, 0⟩
  else none

/-! ## `parse_date_range_from_text` -/

/-- The `joined` text: strip each line, keep the non-blank ones, join with
single spaces. -/
def joinedOf (text : String) : List Char :=
  let lines := (splitLines text).map stripChars
  let lines := lines.filter (fun l => !l.isEmpty)
  (lines.intersperse [' ']).flatten

/-- Code after the pattern-4 block: try the single fully-qualified date,
else fall through to `(None, None, False)`. -/
def step4 (joined : List Char) : Option DT × Option DT × Bool :=
  match searchAux pat4At none joined with
  | some (d, mon, y) =>
    match parse_dmy d mon y with
    | some dt => (some dt, none, false)
    | none => (none, none, false)
  | none => (none, none, false)

/-- Code from the pattern-3 block on: a regex match returns immediately —
even though its start never parses.  The source reads
`dpart, t1, t2 = m.group(1), m.group(2), m.group(3)`, but group 2 is the
`MONTHS` capture inside group 1 and group 3 is the *first* time, so
`s = parse(f"{dpart} {t1}")` parses "D Mon YYYY Mon" (always `None`) and
`e = parse(f"{dpart} {t2}")` attaches the first time; the second time,
group 4, is never read. -/
def step3 (joined : List Char) : Option DT × Option DT × Bool :=
  match searchAux pat3At none joined with
  | some (dmy, t1, _t2) =>
    (parse_dmy_extraMonth dmy.1 dmy.2.1 dmy.2.2 dmy.2.1,
     parse_dmyhm dmy.1 dmy.2.1 dmy.2.2 t1.1 t1.2,
     true)
  | none => step4 joined

/-- Code from the pattern-2 block on.  The source parses `m.groups()[0]`
(the first date) as start and `m.group(2)` — the first date's *month
name* — as end, so the end is the current day-of-month in that month. -/
def step2 (today : Date) (joined : List Char) : Option DT × Option DT × Bool :=
  match searchAux pat2At none joined with
  | some (d1, mon1, y1) =>
    let s := parse_dmy d1 mon1 y1
    let e := parseMonthOnly today mon1
    if s.isSome && e.isSome then (s, e, false) else step3 joined
  | none => step3 joined

/-- Embedding of `parse_date_range_from_text`.  `today` is the run date
(`datetime.now()`), consulted only through `dateutil`'s defaulting in the
pattern-2 branch.  The `end < start` guard in the pattern-1 block has a
`pass` body and is a no-op. -/
def parse_date_range_from_text (today : Date) (text : String) :
    Option DT × Option DT × Bool :=
  let joined := joinedOf text
  match searchAux pat1At none joined with
  | some (d1, d2, mon, y) =>
    let s := parse_dmy d1 mon y
    let e := parse_dmy d2 mon y
    if s.isSome && e.isSome then (s, e, false) else step2 today joined
  | none => step2 today joined

/-! Standalone per-pattern results, for relating the resolver to a
first-match chain. -/

/-- Pattern 1's block in isolation: `some` exactly when it returns. -/
def p1Result (joined : List Char) : Option (Option DT × Option DT × Bool) :=
  match searchAux pat1At none joined with
  | some (d1, d2, mon, y) =>
    let s := parse_dmy d1 mon y
    let e := parse_dmy d2 mon y
    if s.isSome && e.isSome then some (s, e, false) else none
  | none => none

/-- Pattern 2's block in isolation. -/
def p2Result (today : Date) (joined : List Char) :
    Option (Option DT × Option DT × Bool) :=
  match searchAux pat2At none joined with
  | some (d1, mon1, y1) =>
    let s := parse_dmy d1 mon1 y1
    let e := parseMonthOnly today mon1
    if s.isSome && e.isSome then some (s, e, false) else none
  | none => none

/-- Pattern 3's block in isolation: returns on any regex match (see
`step3` for the group-index slip it embeds). -/
def p3Result (joined : List Char) : Option (Option DT × Option DT × Bool) :=
  match searchAux pat3At none joined with
  | some (dmy, t1, _t2) =>
    some (parse_dmy_extraMonth dmy.1 dmy.2.1 dmy.2.2 dmy.2.1,
      parse_dmyhm dmy.1 dmy.2.1 dmy.2.2 t1.1 t1.2,
      true)
  | none => none

/-- Pattern 4's block in isolation. -/
def p4Result (joined : List Char) : Option (Option DT × Option DT × Bool) :=
  match searchAux pat4At none joined with
  | some (d, mon, y) =>
    match parse_dmy d mon y with
    | some dt => some (some dt, none, false)
    | none => none
  | none => none

/-- The value the claim's reading assigns to pattern 1 — the triple
computed from pattern 1's leftmost regex match. -/
def pat1ClaimedValue (joined : List Char) : Option DT × Option DT × Bool :=
  match searchAux pat1At none joined with
  | some (d1, d2, mon, y) => (parse_dmy d1 mon y, parse_dmy d2 mon y, false)
  | none => (none, none, false)

/-! ## `scrape_one`: field extraction and record assembly -/

/-- Substring containment, Python's `needle in hay`. -/
def strContains (hay needle : String) : Bool :=
  containsAux hay.toList needle.toList
where
  containsAux : List Char → List Char → Bool
    | h, n => if n.isPrefixOf h then true else
        match h with
        | [] => false
        | _ :: t => containsAux t n

/-- Alphabetic-or-space, the character class `[A-Za-z ]` of the field
regex. -/
def isLabelChar (c : Char) : Bool := c.isAlpha || c == ' '

/-- Embedding of `re.match(r"^\s*([A-Za-z ]{3,30})\s*:\s*(.+)$", line)`,
returning the lower-cased stripped label and the stripped value.  The
engine's choices are replayed: the leading `\s*` backtracks from its
greedy maximum, the group from 30 (or the label-run length) down to 3;
`\s*:` then requires the colon, and `\s*(.+)$` succeeds exactly when
anything follows the colon, with `group(2).strip()` equal to the stripped
remainder. -/
def matchFieldLine (line : List Char) : Option (String × String) :=
  let wsMax := (line.takeWhile isSpaceC).length
  ((List.range (wsMax + 1)).map (fun i => wsMax - i)).findSome? (fun k =>
    let r := line.drop k
    let runLen := (r.takeWhile isLabelChar).length
    let top := min 30 runLen
    (if top < 3 then [] else (List.range (top - 2)).map (fun i => top - i)).findSome?
      (fun glen =>
        let g := r.take glen
        match eatWs (r.drop glen) with
        | ':' :: v =>
          if v.isEmpty then none
          else some (String.mk (lowerChars (stripChars g)),
            String.mk (stripChars v))
        | _ => none))

/-- Field dictionary: later insertions shadow earlier ones, like Python
`dict` assignment; only lookup and membership are consumed downstream. -/
abbrev Fields := List (String × String)

/-- Python `fields.get(k)` / `fields[k]` with last-wins semantics. -/
def fieldsGet (fs : Fields) (k : String) : Option String :=
  (List.find? (fun p => p.1 == k) fs).map (fun p => p.2)

/-- The field-extraction loop of `scrape_one`: one `re.match` per line of
the cleaned text, later lines overwriting earlier ones. -/
def extract_fields (text : String) : Fields :=
  (splitLines text).foldl (fun fs line =>
    match matchFieldLine line with
    | some kv => kv :: fs
    | none => fs) []

/-- Embedding of `first_nonempty(*vals)`: the first value that is a
string with non-blank content, stripped. -/
def first_nonempty (vals : List (Option String)) : Option String :=
  vals.findSome? (fun v? => v?.bind (fun v =>
    let s := stripStr v
    if s == "" then none else some s))

/-- Embedding of `dtp.parse(s, dayfirst=True)` on a raw field value.  The
token shapes this program can meaningfully feed here are a full date, a
full date with one time, and a bare month name; `today` supplies
`dateutil`'s defaults for the bare-month shape.  Other strings are
outside the embedding and map to `none`. -/
def parse_maybe_dt (today : Date) (s : String) : Option DT :=
  let toks := ((splitOnWs s.toList).map (fun t => t)).filter
    (fun t => !t.isEmpty)
  match toks with
  | [t1, t2, t3] => tokDay t1 |>.bind (fun d => tokMonth t2 |>.bind (fun m =>
      tokYear t3 |>.bind (fun y => parse_dmy d m y)))
  | [t1, t2, t3, t4] =>
    tokDay t1 |>.bind (fun d => tokMonth t2 |>.bind (fun m =>
      tokYear t3 |>.bind (fun y => tokTime t4 |>.bind (fun hm =>
        parse_dmyhm d m y hm.1 hm.2))))
  | [t1] => (tokMonth t1).bind (fun m => parseMonthOnly today m)
  | _ => none
where
  splitOnWs : List Char → List (List Char)
    | [] => [[]]
    | c :: rest =>
      if isSpaceC c then [] :: splitOnWs rest
      else
        match splitOnWs rest with
        | [] => [[c]]
        | t :: more => (c :: t) :: more
  tokDay (t : List Char) : Option Nat :=
    if (t.length == 1 || t.length == 2) && t.all Char.isDigit then
      some (t.foldl (fun n c => n * 10 + digitVal c) 0)
    else none
  tokYear (t : List Char) : Option Nat :=
    if t.length == 4 && t.all Char.isDigit then
      some (t.foldl (fun n c => n * 10 + digitVal c) 0)
    else none
  tokMonth (t : List Char) : Option Nat :=
    (monthsTable.find? (fun nm => nm.1.toList.map Char.toLower ==
      t.map Char.toLower)).map (fun nm => nm.2)
  tokTime (t : List Char) : Option (Nat × Nat) :=
    match (timeMatch t).head? with
    | some (hm, rest) => if rest.isEmpty then some hm else none
    | none => none

/-- The fixed generic brand name filtered out of title candidates. -/
def brandName : String := "International Chess Federation"

/-- The description key order of `scrape_one`. -/
def ordered_keys : List String :=
  ["date", "dates", "start", "end", "venue", "location", "city", "country",
   "organizer", "chief arbiter", "time control", "format", "prizes",
   "contact", "website", "email", "phone"]

/-- Python `str.title()` on this program's lower-case alpha/space keys:
upper-case each letter that follows a non-letter. -/
def pyTitle (s : String) : String :=
  String.mk (titleAux true s.toList)
where
  titleAux : Bool → List Char → List Char
    | _, [] => []
    | atStart, c :: rest =>
      if c.isAlpha then
        (if atStart then c.toUpper else c.toLower) :: titleAux false rest
      else c :: titleAux true rest

/-- The first 1500 characters of the text, with the truncation marker. -/
def snippetOf (text : String) : String :=
  String.mk (text.toList.take 1500 ++
    (if text.toList.length > 1500 then ['…'] else []))

/-- The description block built by `scrape_one`: the source line, one
line per recognized key in fixed order, and the text snippet when no
field was caught. -/
def buildDescription (url : String) (fields : Fields) (text : String) :
    String :=
  let ls := ("Source: " ++ url) ::
    ordered_keys.filterMap (fun k =>
      (fieldsGet fields k).map (fun v => pyTitle k ++ ": " ++ v))
  let ls := if ls.length ≤ 1 then ls ++ [snippetOf text] else ls
  stripStr (String.intercalate "\n" ls)

/-- The per-URL payload the browser collaborator returns to `scrape_one`:
raw main-content text and title candidates. -/
structure Payload where
  text : String
  titleCandidates : List String
  url : String

/-- The record dictionary `scrape_one` returns. -/
structure Rec where
  title : String
  location : String
  start_dt : Option DT
  end_dt : Option DT
  has_time : Bool
  description : String
  url : String
deriving DecidableEq, Repr

/-- Title selection of `scrape_one`: first truthy candidate not
containing the brand name, else the first candidate when any exists,
else the fixed default. -/
def pickTitle (cands : List String) : String :=
  match cands.find? (fun c => c != "" && !strContains c brandName) with
  | some c => c
  | none =>
    match cands with
    | [] => "FIDE Event"
    | c :: _ => c

/-- Embedding of `scrape_one` from the fetched payload to the record:
cleaning, title pick, field extraction, location, the three-stage date
resolution, and the description. -/
def scrape_one (today : Date) (p : Payload) : Rec :=
  let text := clean_text p.text
  let title := pickTitle p.titleCandidates
  let fields := extract_fields text
  let location := (first_nonempty
    [fieldsGet fields "venue", fieldsGet fields "location",
     fieldsGet fields "city", fieldsGet fields "place",
     fieldsGet fields "country"]).getD ""
  let date_val := first_nonempty [fieldsGet fields "date", fieldsGet fields "dates"]
  let start_val := first_nonempty
    [fieldsGet fields "start", fieldsGet fields "start date",
     fieldsGet fields "from"]
  let end_val := first_nonempty
    [fieldsGet fields "end", fieldsGet fields "end date",
     fieldsGet fields "to"]
  let r1 := match date_val with
    | some dv => parse_date_range_from_text today dv
    | none => (none, none, false)
  let r2 :=
    if r1.1.isNone && (start_val.isSome || end_val.isSome) then
      let s := match start_val with
        | some sv => parse_maybe_dt today sv
        | none => none
      let e := match end_val with
        | some ev => parse_maybe_dt today ev
        | none => none
      if s.isNone && start_val.isSome then
        match start_val with
        | some sv => parse_date_range_from_text today sv
        | none => (s, e, r1.2.2)
      else (s, e, r1.2.2)
    else r1
  let r3 := if r2.1.isNone then parse_date_range_from_text today text else r2
  { title := title
    location := location
    start_dt := r3.1
    end_dt := r3.2.1
    has_time := r3.2.2
    description := buildDescription p.url fields text
    url := p.url }

/-! ## `write_ics`: the calendar encoder -/

/-- A calendar timestamp: the source assigns either a Python `date` or a
`datetime` to `ev.begin` / `ev.end`. -/
inductive Stamp where
  | onDate (d : Date)
  | at (t : DT)
deriving DecidableEq, Repr

/-- An encoded `ics` event, at the granularity the source sets fields:
identity, summary, location, description, begin, end, and the all-day
marking applied by `make_all_day()`. -/
structure Event where
  uid : String
  name : String
  location : String
  description : String
  begin : Stamp
  end_ : Option Stamp
  allDay : Bool
deriving DecidableEq, Repr

/-- Encoding of one record in the `write_ics` loop.  `today` is
`date.today()`.  The timed branch is taken when `has_time` is set *or*
the start carries a non-midnight time; the all-day branch floors to
dates and stores the exclusive end, one day past the last included
day; records with no start become an all-day placeholder for today. -/
def encodeEvent (today : Date) (r : Rec) : Event :=
  match r.start_dt with
  | some s =>
    if r.has_time || !(s.hour == 0 && s.minute == 0) then
      { uid := event_uid r.url, name := r.title, location := r.location,
        description := r.description, begin := Stamp.at s,
        end_ := r.end_dt.map Stamp.at, allDay := false }
    else
      let start_d := s.date
      let end_d := match r.end_dt with
        | some e => e.date
        | none => start_d
      { uid := event_uid r.url, name := r.title, location := r.location,
        description := r.description, begin := Stamp.onDate start_d,
        end_ := some (Stamp.onDate (nextDay end_d)), allDay := true }
  | none =>
    { uid := event_uid r.url, name := r.title, location := r.location,
      description := r.description, begin := Stamp.onDate today,
      end_ := none, allDay := true }

/-- The calendar's event container after the `write_ics` loop: the
source adds each encoded event to `cal.events`, a Python *set*, so the
container is unordered and a repeated element is not added twice. -/
def calEvents (today : Date) (records : List Rec) : Multiset Event :=
  records.foldl (fun s r =>
    let e := encodeEvent today r
    if e ∈ s then s else e ::ₘ s) 0

/-- The serialized calendar lists the set's elements in *some* iteration
order: `l` is a possible serialization iff its elements, with
multiplicity, are exactly the container's. -/
abbrev SerializedAs (today : Date) (records : List Rec) (l : List Event) :
    Prop :=
  (l : Multiset Event) = calEvents today records

/-! ## Shared concrete data for the theorems -/

/-- A fixed run date used in concrete evaluations. -/
def tdy0 : Date := ⟨2026, 10, 12⟩

/-- A record with no resolved dates for the first program URL. -/
def rec1 : Rec :=
  ⟨"Event A", "", none, none, false, "descA",
   "https://calendar.fide.com/calendar.php?id=3079"⟩

/-- A record with no resolved dates for the second program URL. -/
def rec2 : Rec :=
  ⟨"Event B", "", none, none, false, "descB",
   "https://calendar.fide.com/calendar.php?id=3220"⟩

/-! ## Theorems -/

/-- C4: on the text "20-25 Aug 2025" (and with the other two separators
the pattern admits: the en-dash and the word "to"), the date range
resolver returns start = 20 Aug 2025, end = 25 Aug 2025, hasTime = false,
whatever the run date. -/
theorem resolver_day_span_range (today : Date) :
    parse_date_range_from_text today "20-25 Aug 2025" =
      (some ⟨⟨2025, 8, 20⟩, 0, 0⟩, some ⟨⟨2025, 8, 25⟩, 0, 0⟩, false) ∧
    parse_date_range_from_text today "20–25 Aug 2025" =
      (some ⟨⟨2025, 8, 20⟩, 0, 0⟩, some ⟨⟨2025, 8, 25⟩, 0, 0⟩, false) ∧
    parse_date_range_from_text today "20 to 25 Aug 2025" =
      (some ⟨⟨2025, 8, 20⟩, 0, 0⟩, some ⟨⟨2025, 8, 25⟩, 0, 0⟩, false) :=
  ⟨rfl, rfl, rfl⟩

/-- C5: on the text "20 Aug 2025 14:00-16:00" the resolver does *not*
return (14:00 start, 16:00 end): the pattern-3 branch reads `m.group(2)`
and `m.group(3)` as the two times, but the `MONTHS` alternation inside
the date capture shifts the group numbers, so the "time" glued onto the
start string is the month name (making the start unparseable) and the
end is built from the *first* time; the second time is never read.  The
code therefore returns (None, 20 Aug 2025 14:00, True). -/
theorem resolver_time_span_bug (today : Date) :
    parse_date_range_from_text today "20 Aug 2025 14:00-16:00" =
      (none, some ⟨⟨2025, 8, 20⟩, 14, 0⟩, true) :=
  rfl

set_option maxHeartbeats 2000000 in
/-- C6: a record with no resolved start is encoded as exactly one
all-day placeholder event beginning at the current processing date with
no end set; the record produced from empty input text has no resolved
start; the encoder is a total function on records (it never rejects). -/
theorem encoder_placeholder (today : Date) (r : Rec) (tcs : List String)
    (url : String) (h : r.start_dt = none) :
    encodeEvent today r =
      { uid := event_uid r.url, name := r.title, location := r.location,
        description := r.description, begin := Stamp.onDate today,
        end_ := none, allDay := true } ∧
    (scrape_one today ⟨"", tcs, url⟩).start_dt = none ∧
    (scrape_one today ⟨"", tcs, url⟩).end_dt = none := by
  refine ⟨?_, rfl, rfl⟩
  unfold encodeEvent
  rw [h]

/-- Witness for C6 at a concrete record and payload. -/
theorem encoder_placeholder_witness :
    encodeEvent tdy0 ⟨"T", "", none, none, false, "D", "http://u"⟩ =
      { uid := event_uid "http://u", name := "T", location := "",
        description := "D", begin := Stamp.onDate tdy0,
        end_ := none, allDay := true } ∧
    (scrape_one tdy0 ⟨"", [], "http://u"⟩).start_dt = none ∧
    (scrape_one tdy0 ⟨"", [], "http://u"⟩).end_dt = none :=
  encoder_placeholder tdy0 ⟨"T", "", none, none, false, "D", "http://u"⟩
    [] "http://u" rfl

/-- The field fold accumulates matches in reverse, in front of the
accumulator. -/
theorem foldl_fields_eq (lines : List (List Char)) (acc : Fields) :
    lines.foldl (fun fs line =>
      match matchFieldLine line with
      | some kv => kv :: fs
      | none => fs) acc =
    (lines.filterMap matchFieldLine).reverse ++ acc := by
  induction lines generalizing acc with
  | nil => simp
  | cons l ls ih =>
    cases h : matchFieldLine l <;>
      simp [List.foldl_cons, h, ih, List.filterMap_cons]

/-- C9: looking a key up in the extracted field map returns the trimmed
value of the *last* line matching the label regex with that (lower-cased,
trimmed) label — non-matching lines contribute nothing; in particular
"Venue: X" before "Venue: Y" yields venue = "Y". -/
theorem fields_last_wins :
    (∀ (text : String) (key : String),
      fieldsGet (extract_fields text) key =
        ((((splitLines text).filterMap matchFieldLine).reverse).find?
          (fun p => p.1 == key)).map (fun p => p.2)) ∧
    fieldsGet (extract_fields "Venue: X\nVenue: Y") "venue" = some "Y" := by
  constructor
  · intro text key
    unfold extract_fields fieldsGet
    rw [foldl_fields_eq, List.append_nil]
  · rfl

/-- C10 counterexample: when every title candidate is filtered out but
the candidate list is non-empty, the source falls back to
`titleCandidates[0]` — the generic brand name itself — not to the fixed
default title "FIDE Event". -/
theorem title_generic_fallback_cx :
    (scrape_one tdy0
      ⟨"", ["International Chess Federation"], "http://u"⟩).title =
      "International Chess Federation" ∧
    "International Chess Federation" ≠ "FIDE Event" :=
  ⟨rfl, by decide⟩

/-- C10 amended: the record's title is the first truthy candidate not
containing the brand name; when all candidates are filtered out the
title falls back to the *first candidate* if the list is non-empty, and
only to the fixed default "FIDE Event" when there are no candidates at
all. -/
theorem title_selection (today : Date) (p : Payload) (c : String) :
    (p.titleCandidates.find?
        (fun t => t != "" && !strContains t brandName) = some c →
      (scrape_one today p).title = c) ∧
    (p.titleCandidates.find?
        (fun t => t != "" && !strContains t brandName) = none →
      (scrape_one today p).title = p.titleCandidates.headD "FIDE Event") := by
  have hT : (scrape_one today p).title = pickTitle p.titleCandidates := rfl
  constructor
  · intro h
    rw [hT]
    unfold pickTitle
    rw [h]
  · intro h
    rw [hT]
    unfold pickTitle
    rw [h]
    cases p.titleCandidates <;> rfl

/-- Witness for C10's amended claim on concrete candidate lists. -/
theorem title_selection_witness :
    (scrape_one tdy0
      ⟨"", ["International Chess Federation", "Open 2025"], "u"⟩).title =
      "Open 2025" ∧
    (scrape_one tdy0 ⟨"", [], "u"⟩).title = "FIDE Event" :=
  ⟨(title_selection tdy0
      ⟨"", ["International Chess Federation", "Open 2025"], "u"⟩ "Open 2025").1
      rfl,
   (title_selection tdy0 ⟨"", [], "u"⟩ "x").2 rfl⟩

/-- A record whose `has_time` is false but whose start carries 14:00,
as the explicit start/end field path produces. -/
def recC2 : Rec :=
  ⟨"t", "", some ⟨⟨2025, 8, 20⟩, 14, 0⟩, none, false, "d", "http://u"⟩

/-- C2 counterexample: a record with hasTime false and a resolved start
is *not* always encoded all-day — a non-midnight start takes the timed
branch, so no all-day marking and no exclusive end date is produced. -/
theorem encode_allday_nonmidnight_cx :
    recC2.has_time = false ∧
    recC2.start_dt = some ⟨⟨2025, 8, 20⟩, 14, 0⟩ ∧
    (encodeEvent tdy0 recC2).allDay = false ∧
    (encodeEvent tdy0 recC2).end_ = none :=
  ⟨rfl, rfl, rfl, rfl⟩

/-- C2 amended: for a record with hasTime false and a resolved start *at
midnight*, the encoder emits an all-day event beginning at the date part
of start whose end is the date part of (end if present, else start) plus
exactly one calendar day. -/
theorem encode_allday_exclusive_end (today : Date) (r : Rec) (s : DT)
    (h1 : r.start_dt = some s) (h2 : r.has_time = false)
    (h3 : s.hour = 0) (h4 : s.minute = 0) :
    (encodeEvent today r).allDay = true ∧
    (encodeEvent today r).begin = Stamp.onDate s.date ∧
    (encodeEvent today r).end_ =
      some (Stamp.onDate (nextDay ((r.end_dt.getD s).date))) := by
  unfold encodeEvent
  rw [h1]
  simp only [h2, h3, h4]
  cases hE : r.end_dt <;> simp [hE]

/-- Witness for C2's amended claim: a single-day all-day record for
20 Aug 2025 is encoded with end 21 Aug 2025. -/
theorem encode_allday_exclusive_end_witness :
    (encodeEvent tdy0
      ⟨"t", "", some ⟨⟨2025, 8, 20⟩, 0, 0⟩, none, false, "d", "u"⟩).allDay =
      true ∧
    (encodeEvent tdy0
      ⟨"t", "", some ⟨⟨2025, 8, 20⟩, 0, 0⟩, none, false, "d", "u"⟩).begin =
      Stamp.onDate ⟨2025, 8, 20⟩ ∧
    (encodeEvent tdy0
      ⟨"t", "", some ⟨⟨2025, 8, 20⟩, 0, 0⟩, none, false, "d", "u"⟩).end_ =
      some (Stamp.onDate ⟨2025, 8, 21⟩) := by
  have h := encode_allday_exclusive_end tdy0
    ⟨"t", "", some ⟨⟨2025, 8, 20⟩, 0, 0⟩, none, false, "d", "u"⟩
    ⟨⟨2025, 8, 20⟩, 0, 0⟩ rfl rfl rfl rfl
  exact ⟨h.1, h.2.1, h.2.2.trans rfl⟩

/-- One compression round keeps the running hash at eight words. -/
theorem compressBlock_length (h b : List Nat) (hh : h.length = 8) :
    (compressBlock h b).length = 8 := by
  unfold compressBlock
  simp [List.length_zipWith, hh]

/-- Folding compression over any block list keeps eight words. -/
theorem foldl_compress_length (bs : List (List Nat)) (h : List Nat)
    (hh : h.length = 8) : (bs.foldl compressBlock h).length = 8 := by
  induction bs generalizing h with
  | nil => simpa using hh
  | cons b bs ih =>
    rw [List.foldl_cons]
    exact ih _ (compressBlock_length h b hh)

/-- The digest has eight words. -/
theorem sha256Words_length (msg : List Nat) :
    (sha256Words msg).length = 8 :=
  foldl_compress_length _ _ rfl

/-- Hex rendering of the digest words is eight characters per word. -/
theorem flatMap_wordHex_length (ws : List Nat) :
    (ws.flatMap wordHex).length = 8 * ws.length := by
  induction ws with
  | nil => rfl
  | cons w ws ih => simp [List.flatMap_cons, ih, wordHex]; ring

/-- The hexdigest always has 64 characters, so its 32-character prefix
has exactly 32. -/
theorem sha256hex_take32_length (msg : List Nat) :
    ((sha256hexList msg).take 32).length = 32 := by
  have h64 : (sha256hexList msg).length = 64 := by
    unfold sha256hexList
    rw [flatMap_wordHex_length, sha256Words_length]
  simp [List.length_take, h64]

/-- C3: the UID is the first 32 hex characters of the SHA-256 of the
UTF-8 encoded URL followed by "@" and the fixed suffix; it is a pure
function of the URL (equal on repeated calls), and two URLs whose hash
prefixes differ get different UIDs. -/
theorem event_uid_spec (u u1 u2 : String) :
    event_uid u =
      String.mk ((sha256hexList (utf8Bytes u)).take 32 ++
        "@fid-event-scrape".toList) ∧
    event_uid u = event_uid u ∧
    ((sha256hexList (utf8Bytes u1)).take 32 ≠
        (sha256hexList (utf8Bytes u2)).take 32 →
      event_uid u1 ≠ event_uid u2) := by
  refine ⟨rfl, rfl, fun hne heq => hne ?_⟩
  have h : (sha256hexList (utf8Bytes u1)).take 32 ++
      "@fid-event-scrape".toList =
      (sha256hexList (utf8Bytes u2)).take 32 ++
      "@fid-event-scrape".toList := congrArg String.data heq
  exact (List.append_inj h
    (by rw [sha256hex_take32_length, sha256hex_take32_length])).1

set_option maxRecDepth 100000 in
set_option maxHeartbeats 4000000 in
/-- Witness for C3 on the program's first two URLs: their 32-character
hash prefixes differ, hence so do their UIDs. -/
theorem event_uid_spec_witness :
    (sha256hexList (utf8Bytes
      "https://calendar.fide.com/calendar.php?id=3079")).take 32 ≠
      (sha256hexList (utf8Bytes
        "https://calendar.fide.com/calendar.php?id=3220")).take 32 ∧
    event_uid "https://calendar.fide.com/calendar.php?id=3079" ≠
      event_uid "https://calendar.fide.com/calendar.php?id=3220" :=
  ⟨by decide,
   (event_uid_spec "" "https://calendar.fide.com/calendar.php?id=3079"
      "https://calendar.fide.com/calendar.php?id=3220").2.2 (by decide)⟩

/-- The tail after pattern 3 equals pattern 4's result with the default
fall-through. -/
theorem step4_eq (j : List Char) :
    step4 j = (p4Result j).getD (none, none, false) := by
  unfold step4 p4Result
  cases h : searchAux pat4At none j with
  | none => rfl
  | some g =>
    obtain ⟨d, mon, y⟩ := g
    cases hp : parse_dmy d mon y <;> simp [hp]

/-- The tail after pattern 2 equals pattern 3's result with the later
blocks as fallback. -/
theorem step3_eq (j : List Char) :
    step3 j = (p3Result j).getD (step4 j) := by
  unfold step3 p3Result
  cases h : searchAux pat3At none j with
  | none => rfl
  | some g => rfl

/-- The tail after pattern 1 equals pattern 2's result with the later
blocks as fallback. -/
theorem step2_eq (today : Date) (j : List Char) :
    step2 today j = (p2Result today j).getD (step3 j) := by
  unfold step2 p2Result
  cases h : searchAux pat2At none j with
  | none => rfl
  | some g =>
    obtain ⟨d1, mon1, y1⟩ := g
    by_cases hc : ((parse_dmy d1 mon1 y1).isSome &&
        (parseMonthOnly today mon1).isSome) = true <;> simp [hc]

/-- The whole resolver equals pattern 1's result with the later blocks
as fallback. -/
theorem resolver_top_eq (today : Date) (text : String) :
    parse_date_range_from_text today text =
      (p1Result (joinedOf text)).getD (step2 today (joinedOf text)) := by
  unfold parse_date_range_from_text p1Result
  cases h : searchAux pat1At none (joinedOf text) with
  | none =>
    simp only [h]
    rfl
  | some g =>
    obtain ⟨d1, d2, mon, y⟩ := g
    simp only [h]
    split <;> simp_all

/-- C7 amended: the resolver is the first-*valid*-pattern chain — the
first block to both regex-match and pass its parse checks supplies the
result (pattern 3 needs only the regex match), a block whose regex
matches but whose dates fail validation falls through to *later*
patterns, and when no block yields anything the resolver returns
`(None, None, False)`. -/
theorem resolver_first_valid_chain (today : Date) (text : String) :
    parse_date_range_from_text today text =
      (([p1Result (joinedOf text), p2Result today (joinedOf text),
         p3Result (joinedOf text), p4Result (joinedOf text)].findSome?
        id).getD (none, none, false)) ∧
    (searchAux pat1At none (joinedOf text) = none ∧
      searchAux pat2At none (joinedOf text) = none ∧
      searchAux pat3At none (joinedOf text) = none ∧
      searchAux pat4At none (joinedOf text) = none →
      parse_date_range_from_text today text = (none, none, false)) := by
  have hchain : parse_date_range_from_text today text =
      (([p1Result (joinedOf text), p2Result today (joinedOf text),
         p3Result (joinedOf text), p4Result (joinedOf text)].findSome?
        id).getD (none, none, false)) := by
    rw [resolver_top_eq, step2_eq, step3_eq, step4_eq]
    cases p1Result (joinedOf text) <;>
      cases p2Result today (joinedOf text) <;>
        cases p3Result (joinedOf text) <;>
          cases p4Result (joinedOf text) <;>
            simp [List.findSome?]
  refine ⟨hchain, fun hn => ?_⟩
  obtain ⟨h1, h2, h3, h4⟩ := hn
  rw [hchain]
  simp [p1Result, p2Result, p3Result, p4Result, h1, h2, h3, h4,
    List.findSome?]

/-- Witness for C7's amended claim: a text matching no pattern resolves
to `(None, None, False)`. -/
theorem resolver_first_valid_chain_witness :
    parse_date_range_from_text tdy0 "no dates here" = (none, none, false) :=
  (resolver_first_valid_chain tdy0 "no dates here").2 ⟨rfl, rfl, rfl, rfl⟩

set_option maxRecDepth 100000 in
/-- C7 counterexample: on "40-45 Aug 2025, 3 Sep 2025 14:00" pattern 1's
shape matches (the regex finds "40-45 Aug 2025"), yet the resolver's
result is not produced from pattern 1 — day 45 fails date validation, the
block falls through, and pattern 3 supplies the result. -/
theorem resolver_precedence_cx :
    (searchAux pat1At none
      (joinedOf "40-45 Aug 2025, 3 Sep 2025 14:00")).isSome = true ∧
    parse_date_range_from_text tdy0 "40-45 Aug 2025, 3 Sep 2025 14:00" =
      (none, some ⟨⟨2025, 9, 3⟩, 14, 0⟩, true) ∧
    parse_date_range_from_text tdy0 "40-45 Aug 2025, 3 Sep 2025 14:00" ≠
      pat1ClaimedValue (joinedOf "40-45 Aug 2025, 3 Sep 2025 14:00") :=
  ⟨rfl, rfl, by decide⟩

/-- An optional datetime is at midnight when any value it holds has hour
and minute zero. -/
def atMidnight (o : Option DT) : Prop :=
  ∀ dt, o = some dt → dt.hour = 0 ∧ dt.minute = 0

/-- Dates parsed from "D MONTH YYYY" are at midnight. -/
theorem parse_dmy_midnight (d m y : Nat) : atMidnight (parse_dmy d m y) := by
  intro dt h
  unfold parse_dmy at h
  split at h
  · cases h
    exact ⟨rfl, rfl⟩
  · cases h

/-- Dates parsed from a bare month name are at midnight. -/
theorem parseMonthOnly_midnight (td : Date) (m : Nat) :
    atMidnight (parseMonthOnly td m) := by
  intro dt h
  unfold parseMonthOnly at h
  split at h
  · cases h
    exact ⟨rfl, rfl⟩
  · cases h

/-- The absent datetime is vacuously at midnight. -/
theorem atMidnight_none : atMidnight none := fun _ h => nomatch h

/-- Everything the pattern-4 block emits is at midnight. -/
theorem step4_midnight (j : List Char) (s e : Option DT) (b : Bool)
    (h : step4 j = (s, e, b)) : atMidnight s ∧ atMidnight e := by
  unfold step4 at h
  rcases hq : searchAux pat4At none j with _ | ⟨d, mon, y⟩ <;>
    simp only [hq] at h
  · cases h
    exact ⟨atMidnight_none, atMidnight_none⟩
  · rcases hp : parse_dmy d mon y with _ | dt <;> simp only [hp] at h <;>
      cases h
    · exact ⟨atMidnight_none, atMidnight_none⟩
    · exact ⟨hp ▸ parse_dmy_midnight d mon y, atMidnight_none⟩

/-- Any `hasTime = false` result from the pattern-3 block on is at
midnight (pattern 3 itself always reports `hasTime = true`). -/
theorem step3_midnight (j : List Char) (s e : Option DT)
    (h : step3 j = (s, e, false)) : atMidnight s ∧ atMidnight e := by
  unfold step3 at h
  split at h
  · cases h
  · exact step4_midnight j s e false h

/-- Any `hasTime = false` result from the pattern-2 block on is at
midnight. -/
theorem step2_midnight (today : Date) (j : List Char) (s e : Option DT)
    (h : step2 today j = (s, e, false)) : atMidnight s ∧ atMidnight e := by
  unfold step2 at h
  rcases hq : searchAux pat2At none j with _ | ⟨d1, mon1, y1⟩ <;>
    simp only [hq] at h
  · exact step3_midnight j s e h
  · split at h
    · cases h
      exact ⟨parse_dmy_midnight _ _ _, parseMonthOnly_midnight _ _⟩
    · exact step3_midnight j s e h

/-- Whenever the resolver reports `hasTime = false`, the start and end
it returns are calendar dates at midnight. -/
theorem resolver_false_midnight (today : Date) (text : String)
    (s e : Option DT) (h : parse_date_range_from_text today text = (s, e, false)) :
    atMidnight s ∧ atMidnight e := by
  unfold parse_date_range_from_text at h
  rcases hq : searchAux pat1At none (joinedOf text) with _ | ⟨d1, d2, mon, y⟩ <;>
    simp only [hq] at h
  · exact step2_midnight today _ s e h
  · split at h
    · cases h
      exact ⟨parse_dmy_midnight _ _ _, parse_dmy_midnight _ _ _⟩
    · exact step2_midnight today _ s e h

set_option maxHeartbeats 2000000 in
/-- C8 counterexample: a record assembled from a page whose only date
cue is an explicit "Start:" field value carrying a clock time has
`hasTime = false` while its start is 20 Aug 2025 *at 14:00* — the
explicit start/end field path parses times without raising the flag. -/
theorem record_nonmidnight_cx :
    (scrape_one tdy0 ⟨"Start: 20 Aug 2025 14:00", [], "http://u"⟩).has_time =
      false ∧
    (scrape_one tdy0 ⟨"Start: 20 Aug 2025 14:00", [], "http://u"⟩).start_dt =
      some ⟨⟨2025, 8, 20⟩, 14, 0⟩ :=
  ⟨rfl, rfl⟩

set_option maxHeartbeats 2000000 in
/-- C8 amended: provided the record's dates come from the date-range
resolver — that is, the page has no non-blank explicit
start/"start date"/from or end/"end date"/to field, so the explicit-field
path is skipped — hasTime = false implies the start and end are calendar
dates with midnight time-of-day, and hasTime = true is reported only by
the timed pattern. -/
theorem record_midnight_without_explicit_fields (today : Date) (p : Payload)
    (hs : first_nonempty
      [fieldsGet (extract_fields (clean_text p.text)) "start",
       fieldsGet (extract_fields (clean_text p.text)) "start date",
       fieldsGet (extract_fields (clean_text p.text)) "from"] = none)
    (he : first_nonempty
      [fieldsGet (extract_fields (clean_text p.text)) "end",
       fieldsGet (extract_fields (clean_text p.text)) "end date",
       fieldsGet (extract_fields (clean_text p.text)) "to"] = none)
    (hht : (scrape_one today p).has_time = false) :
    atMidnight (scrape_one today p).start_dt ∧
    atMidnight (scrape_one today p).end_dt := by
  have key : ∃ t : String,
      ((scrape_one today p).start_dt, (scrape_one today p).end_dt,
        (scrape_one today p).has_time) =
      parse_date_range_from_text today t := by
    simp only [scrape_one, hs, he, Option.isSome_none, Bool.or_self,
      Bool.and_false]
    cases hd : first_nonempty
        [fieldsGet (extract_fields (clean_text p.text)) "date",
         fieldsGet (extract_fields (clean_text p.text)) "dates"] with
    | none => exact ⟨clean_text p.text, by simp⟩
    | some dv =>
      cases hv : (parse_date_range_from_text today dv).1 with
      | none => exact ⟨clean_text p.text, by simp [hv]⟩
      | some sdt => exact ⟨dv, by simp [Prod.ext_iff, hv]⟩
  obtain ⟨t, ht⟩ := key
  have ht' : parse_date_range_from_text today t =
      ((scrape_one today p).start_dt, (scrape_one today p).end_dt, false) := by
    rw [← hht]
    exact ht.symm
  exact resolver_false_midnight today t _ _ ht'

/-- Witness for C8's amended claim on a page carrying only a "Date:"
field. -/
theorem record_midnight_witness :
    atMidnight (scrape_one tdy0 ⟨"Date: 20-25 Aug 2025", [], "u"⟩).start_dt ∧
    atMidnight (scrape_one tdy0 ⟨"Date: 20-25 Aug 2025", [], "u"⟩).end_dt :=
  record_midnight_without_explicit_fields tdy0
    ⟨"Date: 20-25 Aug 2025", [], "u"⟩ rfl rfl rfl

/-- When the encoded events are pairwise distinct and fresh for the
accumulator, the set-insertion fold adds every one of them. -/
theorem calEvents_fold_of_nodup (today : Date) :
    ∀ (records : List Rec) (s : Multiset Event),
      (records.map (encodeEvent today)).Nodup →
      (∀ r ∈ records, encodeEvent today r ∉ s) →
      records.foldl (fun s r =>
        let e := encodeEvent today r
        if e ∈ s then s else e ::ₘ s) s =
      ↑(records.map (encodeEvent today)) + s := by
  intro records
  induction records with
  | nil => intro s _ _; simp
  | cons r rs ih =>
    intro s hnd hfresh
    have hnmem : encodeEvent today r ∉ s := hfresh r (by simp)
    have hnd' := hnd
    rw [List.map_cons, List.nodup_cons] at hnd'
    have hstep : ((r :: rs).foldl (fun s r =>
        let e := encodeEvent today r
        if e ∈ s then s else e ::ₘ s) s) =
        rs.foldl (fun s r =>
          let e := encodeEvent today r
          if e ∈ s then s else e ::ₘ s) (encodeEvent today r ::ₘ s) := by
      simp [List.foldl_cons, hnmem]
    rw [hstep, ih (encodeEvent today r ::ₘ s) hnd'.2 ?_]
    · rw [Multiset.add_cons, List.map_cons, ← Multiset.cons_coe,
        Multiset.cons_add]
    · intro r' hr' hmem
      rcases Multiset.mem_cons.mp hmem with heq | hmem'
      · exact hnd'.1 (heq ▸ List.mem_map_of_mem (encodeEvent today) hr')
      · exact hfresh r' (List.mem_cons_of_mem _ hr') hmem'

/-- C1 amended: whenever the encoded events are pairwise distinct (as
with the program's distinct URL list), every serialization of the
calendar has exactly one event per input record — count equals input
count and the events are a permutation of the per-record encodings; the
container is an unordered set, so no particular order is guaranteed. -/
theorem write_ics_count_perm (today : Date) (records : List Rec)
    (l : List Event) (hnd : (records.map (encodeEvent today)).Nodup)
    (hser : SerializedAs today records l) :
    l.length = records.length ∧
    l.Perm (records.map (encodeEvent today)) := by
  have hc : calEvents today records = ↑(records.map (encodeEvent today)) := by
    have h := calEvents_fold_of_nodup today records 0 hnd (by simp)
    unfold calEvents
    rw [h, add_zero]
  have hp : l.Perm (records.map (encodeEvent today)) :=
    Multiset.coe_eq_coe.mp (by rw [SerializedAs] at hser; rw [hser, hc])
  exact ⟨hp.length_eq.trans (List.length_map _ _), hp⟩

set_option maxRecDepth 100000 in
set_option maxHeartbeats 4000000 in
/-- Witness for C1's amended claim on two concrete records. -/
theorem write_ics_count_perm_witness :
    [encodeEvent tdy0 rec1, encodeEvent tdy0 rec2].length =
      ([rec1, rec2] : List Rec).length ∧
    [encodeEvent tdy0 rec1, encodeEvent tdy0 rec2].Perm
      ([rec1, rec2].map (encodeEvent tdy0)) :=
  write_ics_count_perm tdy0 [rec1, rec2]
    [encodeEvent tdy0 rec1, encodeEvent tdy0 rec2] (by decide) (by decide)

set_option maxRecDepth 100000 in
set_option maxHeartbeats 4000000 in
/-- C1 counterexample: the calendar container is a Python set, so the
serialized order is any iteration order of the set — for two records the
reversed list is a valid serialization that differs from the input
order. -/
theorem write_ics_order_cx :
    SerializedAs tdy0 [rec1, rec2]
      [encodeEvent tdy0 rec2, encodeEvent tdy0 rec1] ∧
    [encodeEvent tdy0 rec2, encodeEvent tdy0 rec1] ≠
      [rec1, rec2].map (encodeEvent tdy0) :=
  ⟨by decide, by decide⟩

end FideScrape
